import Mathlib

/-! Svk: switchable verifying keys for recursive Groth16 verification.

A shallow embedding of `helpers.go` (`nBits`, `compileCircuit`) and of the circuit and
test code of `vk_test.go` (`OuterCircuit.Define`, the shape assertions of
`TestSameCircuitsInfo`), followed by the properties proved about them.

The gnark primitives (`frontend.Compile`, `groth16.Setup`, `groth16.Prove`, ...) are
external: they are parameters of the embedding, each returning a Go-style pair of a
value and an error (`none` is a `nil` error).
-/

namespace Svk

/-! ## helpers.go -/

/-- The method `big.Int.Lsh`: `x << n` on arbitrary-precision integers. -/
def Lsh (x : Int) (n : Nat) : Int := x * 2 ^ n

/-- The function `nBits` of helpers.go. `bits` is a Go `int`; for `bits > 0` the
conversion `uint(bits)` keeps the value, here `bits.toNat`. -/
def nBits (bits : Int) : Int :=
  if bits ≤ 0 then 0
  else
    let maxNum : Int := 1
    let maxNum := Lsh maxNum bits.toNat
    maxNum - 1

/-- The six stages of `compileCircuit`, in the order of the source. -/
inductive Stage where
  | Compile
  | Setup
  | NewWitness
  | Prove
  | Public
  | Verify
  deriving DecidableEq, Repr

/-- The gnark primitives called by `compileCircuit`. Every fallible primitive returns
its values together with an error, as in Go. -/
structure Backend (Circuit Field CCS PK VK Wit Prf POpt VOpt Err : Type) where
  /-- The call `frontend.Compile(field, r1cs.NewBuilder, circuit)`. -/
  Compile : Field → Circuit → CCS × Option Err
  /-- The call `groth16.Setup(ccs)`. -/
  Setup : CCS → PK × VK × Option Err
  /-- The call `frontend.NewWitness(assignment, field)`. -/
  NewWitness : Circuit → Field → Wit × Option Err
  /-- The call `stdgroth16.GetNativeProverOptions(outer, field)`. -/
  GetNativeProverOptions : Field → Field → POpt
  /-- The call `groth16.Prove(ccs, pk, fullWitness, opts)`. -/
  Prove : CCS → PK → Wit → POpt → Prf × Option Err
  /-- The method `fullWitness.Public()`. -/
  Public : Wit → Wit × Option Err
  /-- The call `stdgroth16.GetNativeVerifierOptions(outer, field)`. -/
  GetNativeVerifierOptions : Field → Field → VOpt
  /-- The call `groth16.Verify(proof, vk, publicWitness, opts)`. -/
  Verify : Prf → VK → Wit → VOpt → Option Err

/-- What one run of `compileCircuit` gives: the five values of the Go return statement
(`none` is `nil`) and the log of the stages that were invoked, in order. -/
structure Run (CCS Wit Prf VK Err : Type) where
  calls : List Stage
  ccs : Option CCS
  publicWitness : Option Wit
  proof : Option Prf
  vk : Option VK
  err : Option Err

/-- The statement `return nil, nil, nil, nil, err`. -/
def Run.fail {CCS Wit Prf VK Err : Type} (calls : List Stage) (err : Err) :
    Run CCS Wit Prf VK Err :=
  { calls := calls, ccs := none, publicWitness := none, proof := none, vk := none,
    err := some err }

section Pipeline

variable {Circuit Field CCS PK VK Wit Prf POpt VOpt Err : Type}

/-- The function `compileCircuit` of helpers.go. -/
def compileCircuit (b : Backend Circuit Field CCS PK VK Wit Prf POpt VOpt Err)
    (placeholder assigment : Circuit) (outer field : Field) : Run CCS Wit Prf VK Err :=
  let c := b.Compile field placeholder
  match c.2 with
  | some err => Run.fail [Stage.Compile] err
  | none =>
    let s := b.Setup c.1
    match s.2.2 with
    | some err => Run.fail [Stage.Compile, Stage.Setup] err
    | none =>
      let w := b.NewWitness assigment field
      match w.2 with
      | some err => Run.fail [Stage.Compile, Stage.Setup, Stage.NewWitness] err
      | none =>
        let p := b.Prove c.1 s.1 w.1 (b.GetNativeProverOptions outer field)
        match p.2 with
        | some err =>
          Run.fail [Stage.Compile, Stage.Setup, Stage.NewWitness, Stage.Prove] err
        | none =>
          let pw := b.Public w.1
          match pw.2 with
          | some err =>
            Run.fail [Stage.Compile, Stage.Setup, Stage.NewWitness, Stage.Prove,
              Stage.Public] err
          | none =>
            match b.Verify p.1 s.2.1 pw.1 (b.GetNativeVerifierOptions outer field) with
            | some err =>
              Run.fail [Stage.Compile, Stage.Setup, Stage.NewWitness, Stage.Prove,
                Stage.Public, Stage.Verify] err
            | none =>
              { calls := [Stage.Compile, Stage.Setup, Stage.NewWitness, Stage.Prove,
                  Stage.Public, Stage.Verify],
                ccs := some c.1, publicWitness := some pw.1, proof := some p.1,
                vk := some s.2.1, err := none }

end Pipeline

/-- A small concrete backend used to run `compileCircuit`: circuits, fields and all
artifacts are natural numbers. A circuit `0` does not compile (error `1`), an assignment
`0` gives no witness (error `3`), the proof of a witness `w` is `w + ccs`, and `Verify`
accepts exactly the proofs `pub + vk` (error `6` otherwise). -/
def toyBackend (setupShift : Nat) : Backend Nat Nat Nat Nat Nat Nat Nat (Nat × Nat) (Nat × Nat) Nat where
  Compile := fun _ c => if c = 0 then (0, some 1) else (c, none)
  Setup := fun ccs => (ccs, ccs + setupShift, none)
  NewWitness := fun a _ => if a = 0 then (0, some 3) else (a, none)
  GetNativeProverOptions := fun outer field => (outer, field)
  Prove := fun ccs _ w _ => (w + ccs, none)
  Public := fun w => (w, none)
  GetNativeVerifierOptions := fun outer field => (outer, field)
  Verify := fun p vk pub _ => if p = pub + vk then none else some 6

/-! ## vk_test.go -/

/-- A Go slice where the comparison tells a nil slice from an empty one: `none` is the
nil slice and `some l` the slice that is not nil and holds the elements `l`. Slices of
which only the length and the elements are read are plain lists. -/
abbrev Slice (α : Type) := Option (List α)

/-- Modelled from the spec: the component `G1` of a verifying key, the per-statement
base elements `K`. -/
structure VerifyingKey.G1Part (F : Type) where
  K : List F
  deriving DecidableEq, Repr

/-- Modelled from the spec: the component `G2` of a verifying key. -/
structure VerifyingKey.G2Part (F : Type) where
  GammaNeg : F
  DeltaNeg : F
  deriving DecidableEq, Repr

/-- Modelled from the spec: the in-circuit verifying key `stdgroth16.VerifyingKey`, a
gnark type whose declaration is not part of this repository. Its values are scalars of
the circuit field `F` (a group element stands for its coordinates); its shape is the
length of `G1.K`, the number of commitment keys and the committed indices, which are
native Go integers in a value of type `[][]int`. -/
structure VerifyingKey (F : Type) where
  E : F
  G1 : VerifyingKey.G1Part F
  G2 : VerifyingKey.G2Part F
  CommitmentKeys : List (F × F)
  PublicAndCommitmentCommitted : Slice (Slice Int)
  deriving DecidableEq, Repr

/-- The quicktest checker `qt.HasLen`: the value has the given length. -/
def HasLen {α : Type} (got : List α) (n : Nat) : Bool := got.length == n

/-- The decimal text of a Go `int`, as the verb `%#v` prints it. -/
def printInt : Int → List Char
  | Int.ofNat m => Nat.toDigits 10 m
  | Int.negSucc m => '-' :: Nat.toDigits 10 (m + 1)

/-- The text `pretty.Sprint` gives for a value of type `int`, as in `int(5)`. -/
def prettyInt (n : Int) : List Char :=
  "int(".toList ++ printInt n ++ ")".toList

/-- The text `pretty.Sprint` gives for a value of type `[]int`: `[]int(nil)` for the nil
slice, and otherwise the type name followed by the elements between braces, separated
by a comma and a blank. -/
def prettyInts : Slice Int → List Char
  | none => "[]int(nil)".toList
  | some l =>
    "[]int\x7b".toList ++ (", ".toList).intercalate (l.map printInt) ++ "\x7d".toList

/-- The option `cmpopts.SortSlices` as `qt.ContentEquals` sets it: a stable sort of the
elements of a slice by the byte order of their printed forms (the less function is
`pretty.Sprint(x) < pretty.Sprint(y)`). The option leaves alone two slices that are both
sorted or both of length at most one; sorting leaves such slices as they are. -/
def sortSlice {α : Type} (print : α → List Char) (xs : List α) : List α :=
  xs.insertionSort (fun a b => print a ≤ print b)

/-- The comparison of `qt.ContentEquals` on two values of type `[]int`: a nil slice
equals only a nil slice; two slices that are not nil are sorted by `sortSlice` and then
compared element by element. -/
def equalInts : Slice Int → Slice Int → Bool
  | none, none => true
  | some a, some b => sortSlice prettyInt a == sortSlice prettyInt b
  | _, _ => false

/-- The element-by-element comparison of two slices of `[]int` values: the same length,
and at each position entries that `equalInts` accepts. -/
def equalEntries : List (Slice Int) → List (Slice Int) → Bool
  | [], [] => true
  | a :: xs, b :: ys => equalInts a b && equalEntries xs ys
  | _, _ => false

/-- The quicktest checker `qt.ContentEquals` on values of type `[][]int`, which is
`cmp.Equal` under `sortSlice`. A nil slice equals only a nil slice. Two outer slices that
are not nil are each sorted by the printed forms of their entries, taken as they are
(the inner slices are not sorted yet), and then compared position by position, the two
inner slices of a position by `equalInts`. -/
def ContentEquals : Slice (Slice Int) → Slice (Slice Int) → Bool
  | none, none => true
  | some xs, some ys => equalEntries (sortSlice prettyInts xs) (sortSlice prettyInts ys)
  | _, _ => false

/-- The three shape assertions of `TestSameCircuitsInfo` (the Shape Validator,
`checkShapeEquivalent` in the spec) on the two placeholder keys. `c.Assert` stops the test
at the first assertion that fails; the result is `true` when all three pass. -/
def checkShapeEquivalent {F : Type} (mainVk dummyVk : VerifyingKey F) : Bool :=
  if !HasLen dummyVk.G1.K mainVk.G1.K.length then false
  else if !HasLen dummyVk.CommitmentKeys mainVk.CommitmentKeys.length then false
  else ContentEquals dummyVk.PublicAndCommitmentCommitted
    mainVk.PublicAndCommitmentCommitted

/-- Modelled from the spec: the branchless conditional combination of two scalars,
`candidate0 * (1 - b) + candidate1 * b`. -/
def combine {F : Type} [CommRing F] (b candidate0 candidate1 : F) : F :=
  candidate0 * (1 - b) + candidate1 * b

/-- Modelled from the spec: `select([vk0, vk1], [b])` of the Switchable Verifying Key,
whose source file is not among the sources. Every structurally-corresponding scalar of
the two candidates (`E`, each entry of `K`, the `G2` elements, each commitment key) is
combined by `combine`; the committed indices are shape, not circuit values, and are
those of the first candidate. -/
def select {F : Type} [CommRing F] (vk0 vk1 : VerifyingKey F) (b : F) : VerifyingKey F where
  E := combine b vk0.E vk1.E
  G1 := { K := List.zipWith (combine b) vk0.G1.K vk1.G1.K }
  G2 := { GammaNeg := combine b vk0.G2.GammaNeg vk1.G2.GammaNeg,
          DeltaNeg := combine b vk0.G2.DeltaNeg vk1.G2.DeltaNeg }
  CommitmentKeys := List.zipWith
    (fun k0 k1 => (combine b k0.1 k1.1, combine b k0.2 k1.2))
    vk0.CommitmentKeys vk1.CommitmentKeys
  PublicAndCommitmentCommitted := vk0.PublicAndCommitmentCommitted

/-- The switchable key `VerifiyingAndDummyKey{Vk, Dummy}` built by `TestOuterCircuit`. -/
structure VerifiyingAndDummyKey (F : Type) where
  Vk : VerifyingKey F
  Dummy : VerifyingKey F
  deriving DecidableEq, Repr

/-- Modelled from the spec: the method `VerifiyingAndDummyKey.Switch`, whose source file
is not among the sources. It is `select` over the candidates `[Dummy, Vk]`: the flag `1`
takes `Vk` and the flag `0` takes `Dummy`, as the end-to-end scenario of the spec has it
(selector bit `1` checks the real proof against the real key). The modelled selection
cannot fail, so the error is `nil`. -/
def VerifiyingAndDummyKey.Switch {F Err : Type} [CommRing F] (k : VerifiyingAndDummyKey F)
    (selector : F) : VerifyingKey F × Option Err :=
  (select k.Dummy k.Vk selector, none)

/-- Digit `i` of the binary decomposition of the value `v`, as a variable of the circuit:
`1` when bit `i` of `v` is set and `0` otherwise. -/
def binaryDigit {F : Type} [CommRing F] (v : Nat) (i : Nat) : F :=
  if v.testBit i then 1 else 0

/-- The gnark gadget `bits.ToBinary(api, v)` without options, over the circuit field of
the given modulus: the value is an element of the field, that is the assigned integer
reduced modulo the modulus, and the result is its little-endian binary decomposition
over as many digits as the modulus has bits (`api.Compiler().FieldBitLen()`), each digit
a variable of the circuit. -/
def ToBinary {F : Type} [CommRing F] (modulus : Nat) (v : Nat) : List F :=
  (List.range (Nat.size modulus)).map (binaryDigit (v % modulus))

/-- The circuit `OuterCircuit` of vk_test.go. `Selector` is the value assigned to the
selector variable; the arrays of length 2 are functions on `Fin 2`. -/
structure OuterCircuit (F Prf Wit : Type) where
  Selector : Nat
  Proofs : Fin 2 → Prf
  PublicInputs : Fin 2 → Wit
  VerificationKey : VerifiyingAndDummyKey F

/-- What `OuterCircuit.Define` calls: the modulus of the circuit field
(`api.Compiler().Field()`), the error of `stdgroth16.NewVerifier`, the method `Switch` of
the switchable key and the method `verifier.AssertProof`. -/
structure CircuitAPI (F Prf Wit Err : Type) where
  Modulus : Nat
  NewVerifier : Option Err
  Switch : VerifiyingAndDummyKey F → F → VerifyingKey F × Option Err
  AssertProof : VerifyingKey F → Prf → Wit → Option Err

/-- The bit length of the circuit field, `api.Compiler().FieldBitLen()`. -/
def CircuitAPI.FieldBitLen {F Prf Wit Err : Type} (api : CircuitAPI F Prf Wit Err) : Nat :=
  Nat.size api.Modulus

/-- The calls `OuterCircuit.Define` makes inside its loop, with their arguments. -/
inductive Call (F Prf Wit : Type) where
  | Switch (selector : F)
  | AssertProof (vk : VerifyingKey F) (proof : Prf) (publicInputs : Wit)
  deriving DecidableEq, Repr

/-- How a run of `Define` ends: it returns `nil`, it returns an error, or the index
`selectors[i]` is out of range and the Go runtime panics. -/
inductive Outcome (Err : Type) where
  | nil
  | error (err : Err)
  | indexPanic
  deriving DecidableEq, Repr

/-- A run of `Define`: the calls made inside the loop, in order, and how it ended. -/
structure DefineRun (F Prf Wit Err : Type) where
  calls : List (Call F Prf Wit)
  result : Outcome Err

section Outer

variable {F Prf Wit Err : Type}

/-- The loop `for i := 0; i < len(c.Proofs); i++` of `OuterCircuit.Define`, over the
slots still to be processed; `log` holds the calls made so far. -/
def Define.loop (api : CircuitAPI F Prf Wit Err) (c : OuterCircuit F Prf Wit)
    (selectors : List F) : List (Fin 2) → List (Call F Prf Wit) → DefineRun F Prf Wit Err
  | [], log => { calls := log, result := Outcome.nil }
  | i :: rest, log =>
    match selectors.get? i.val with
    | none => { calls := log, result := Outcome.indexPanic }
    | some sel =>
      let sw := api.Switch c.VerificationKey sel
      let log := log ++ [Call.Switch sel]
      match sw.2 with
      | some err => { calls := log, result := Outcome.error err }
      | none =>
        let log := log ++ [Call.AssertProof sw.1 (c.Proofs i) (c.PublicInputs i)]
        match api.AssertProof sw.1 (c.Proofs i) (c.PublicInputs i) with
        | some err => { calls := log, result := Outcome.error err }
        | none => Define.loop api c selectors rest log

/-- The method `OuterCircuit.Define` of vk_test.go. -/
def Define [CommRing F] (api : CircuitAPI F Prf Wit Err) (c : OuterCircuit F Prf Wit) :
    DefineRun F Prf Wit Err :=
  match api.NewVerifier with
  | some err => { calls := [], result := Outcome.error err }
  | none =>
    let selectors : List F := ToBinary api.Modulus c.Selector
    Define.loop api c selectors (List.finRange 2) []

end Outer

/-! ## Concrete instances -/

/-- The modulus `ecc.BW6_761.ScalarField()` of gnark-crypto, the field over which
`TestOuterCircuit` compiles `OuterCircuit`; it has 377 bits and is the base field modulus
of BLS12-377, `(x - 1) ^ 2 * (x ^ 4 - x ^ 2 + 1) / 3 + x` at `x = 0x8508c00000000001`. -/
def BW6_761_ScalarField : Nat :=
  258664426012969094010652733694893533536393512754914660539884262666720468348340822774968888139573360124440321458177

/-- A Groth16 proof given by three integers that stand for its three group elements. -/
structure ToyProof where
  Ar : Int
  Bs : Int
  Krs : Int
  deriving DecidableEq, Repr

/-- An example key in the role of the key of `MainCircuit`. -/
def realKey : VerifyingKey Int :=
  { E := 10, G1 := { K := [1, 5] }, G2 := { GammaNeg := -2, DeltaNeg := -3 },
    CommitmentKeys := [], PublicAndCommitmentCommitted := some [] }

/-- An example key in the role of the key of `DummyCircuit`: it differs from `realKey`
in the base element `K[1]`. -/
def dummyKey : VerifyingKey Int :=
  { E := 10, G1 := { K := [1, 9] }, G2 := { GammaNeg := -2, DeltaNeg := -3 },
    CommitmentKeys := [], PublicAndCommitmentCommitted := some [] }

/-- The switchable key of the examples. -/
def demoKeys : VerifiyingAndDummyKey Int := { Vk := realKey, Dummy := dummyKey }

/-- An example assignment of `OuterCircuit`: slot 0 holds a proof for the public input
`0` and slot 1 a proof for the public input `1`. -/
def demoOuter (selector : Nat) : OuterCircuit Int ToyProof (List Int) :=
  { Selector := selector,
    Proofs := ![{ Ar := 3, Bs := 5, Krs := 1 }, { Ar := 5, Bs := 6, Krs := 0 }],
    PublicInputs := ![[0], [1]],
    VerificationKey := demoKeys }

/-- An example circuit API over the scalar field of BW6-761: `Switch` is the modelled
method, `AssertProof` never fails to build, `NewVerifier` returns the given error. -/
def demoAPI (newVerifier : Option Nat) : CircuitAPI Int ToyProof (List Int) Nat :=
  { Modulus := BW6_761_ScalarField, NewVerifier := newVerifier,
    Switch := VerifiyingAndDummyKey.Switch, AssertProof := fun _ _ _ => none }

/-- Two example keys for the shape assertions: same lengths, and committed indices that
hold the same entries with different multiplicities. -/
def shapeKeyA : VerifyingKey Int :=
  { E := 0, G1 := { K := [1, 2, 3, 4] }, G2 := { GammaNeg := 0, DeltaNeg := 0 },
    CommitmentKeys := [(1, 1), (2, 2), (3, 3)],
    PublicAndCommitmentCommitted := some [some [], some [], some [1]] }

/-- The second example key for the shape assertions. -/
def shapeKeyB : VerifyingKey Int :=
  { E := 0, G1 := { K := [5, 6, 7, 8] }, G2 := { GammaNeg := 0, DeltaNeg := 0 },
    CommitmentKeys := [(4, 4), (5, 5), (6, 6)],
    PublicAndCommitmentCommitted := some [some [], some [1], some [1]] }

/-- A third example key: the committed indices of `shapeKeyA` in another order. -/
def shapeKeyC : VerifyingKey Int :=
  { E := 1, G1 := { K := [0, 0, 0, 0] }, G2 := { GammaNeg := 1, DeltaNeg := 1 },
    CommitmentKeys := [(0, 0), (0, 0), (0, 0)],
    PublicAndCommitmentCommitted := some [some [1], some [], some []] }

end Svk

namespace Svk

/-! ## Properties of helpers.go -/

theorem Lsh_one (n : Nat) : Lsh 1 n = 2 ^ n := by
  simp [Lsh]

theorem nBits_pos {bits : Int} (h : 0 < bits) : nBits bits = ((2 ^ bits.toNat - 1 : Nat) : Int) := by
  have h2 : 1 ≤ 2 ^ bits.toNat := Nat.one_le_two_pow
  simp only [nBits, Lsh_one, not_le.mpr h, if_false]
  push_cast [Nat.cast_sub h2]
  rfl

/-- C9: value and range of `nBits`. For `bits > 0`, `nBits bits = 2 ^ bits - 1`, which is
`(1 << bits) - 1` and has exactly the low `bits` bits set; for `bits ≤ 0` it is `0`; hence
for `bits ≥ 0` it lies in `[0, 2 ^ bits)`, and for `bits > 0` it is the largest value of
that range. -/
theorem nBits_value_and_range (bits : Int) :
    (0 < bits → nBits bits = 2 ^ bits.toNat - 1 ∧ nBits bits = Lsh 1 bits.toNat - 1 ∧
      ∀ i : Nat, (nBits bits).testBit i = decide ((i : Int) < bits)) ∧
    (bits ≤ 0 → nBits bits = 0) ∧
    (0 ≤ bits → 0 ≤ nBits bits ∧ nBits bits < 2 ^ bits.toNat) ∧
    (0 < bits → ∀ x : Int, 0 ≤ x → x < 2 ^ bits.toNat → x ≤ nBits bits) := by
  have hpow : (1 : Int) ≤ 2 ^ bits.toNat := one_le_pow₀ (by norm_num)
  refine ⟨fun h => ⟨?_, ?_, fun i => ?_⟩, fun h => ?_, fun h => ?_, fun h x _ hx => ?_⟩
  · simp [nBits, Lsh_one, not_le.mpr h]
  · simp [nBits, not_le.mpr h]
  · rw [nBits_pos h]
    show Nat.testBit _ i = _
    rw [Nat.testBit_two_pow_sub_one]
    congr 1
    apply propext
    omega
  · simp [nBits, h]
  · rcases eq_or_lt_of_le h with h0 | h0
    · subst h0
      simp [nBits]
    · simp only [nBits, Lsh_one, not_le.mpr h0, if_false]
      omega
  · simp only [nBits, Lsh_one, not_le.mpr h, if_false]
    omega

/-- The values at `bits = 3`, `0` and `-4`. -/
theorem nBits_value_and_range_witness : nBits 3 = 7 ∧ (nBits 3).testBit 2 = true ∧ nBits 0 = 0 ∧ nBits (-4) = 0 ∧
    (5 : Int) ≤ nBits 3 :=
  ⟨by rw [((nBits_value_and_range 3).1 (by decide)).1]; rfl,
   by rw [((nBits_value_and_range 3).1 (by decide)).2.2 2]; decide,
   (nBits_value_and_range 0).2.1 (by decide), (nBits_value_and_range (-4)).2.1 (by decide),
   (nBits_value_and_range 3).2.2.2 (by decide) 5 (by decide) (by decide)⟩

section PipelineTheorems

variable {Circuit Field CCS PK VK Wit Prf POpt VOpt Err : Type}

/-- The seven ways a run of `compileCircuit` can go: one failure for each stage, each
after the success of the stages before it, or the success of all six. -/
theorem compileCircuit_cases (b : Backend Circuit Field CCS PK VK Wit Prf POpt VOpt Err)
    (placeholder assigment : Circuit) (outer field : Field) :
    (∃ e, (b.Compile field placeholder).2 = some e ∧
      compileCircuit b placeholder assigment outer field = Run.fail [Stage.Compile] e) ∨
    ((b.Compile field placeholder).2 = none ∧
      ((∃ e, (b.Setup (b.Compile field placeholder).1).2.2 = some e ∧
        compileCircuit b placeholder assigment outer field =
          Run.fail [Stage.Compile, Stage.Setup] e) ∨
      ((b.Setup (b.Compile field placeholder).1).2.2 = none ∧
        ((∃ e, (b.NewWitness assigment field).2 = some e ∧
          compileCircuit b placeholder assigment outer field =
            Run.fail [Stage.Compile, Stage.Setup, Stage.NewWitness] e) ∨
        ((b.NewWitness assigment field).2 = none ∧
          ((∃ e, (b.Prove (b.Compile field placeholder).1
                (b.Setup (b.Compile field placeholder).1).1 (b.NewWitness assigment field).1
                (b.GetNativeProverOptions outer field)).2 = some e ∧
            compileCircuit b placeholder assigment outer field =
              Run.fail [Stage.Compile, Stage.Setup, Stage.NewWitness, Stage.Prove] e) ∨
          ((b.Prove (b.Compile field placeholder).1
                (b.Setup (b.Compile field placeholder).1).1 (b.NewWitness assigment field).1
                (b.GetNativeProverOptions outer field)).2 = none ∧
            ((∃ e, (b.Public (b.NewWitness assigment field).1).2 = some e ∧
              compileCircuit b placeholder assigment outer field =
                Run.fail [Stage.Compile, Stage.Setup, Stage.NewWitness, Stage.Prove,
                  Stage.Public] e) ∨
            ((b.Public (b.NewWitness assigment field).1).2 = none ∧
              ((∃ e, b.Verify (b.Prove (b.Compile field placeholder).1
                    (b.Setup (b.Compile field placeholder).1).1
                    (b.NewWitness assigment field).1
                    (b.GetNativeProverOptions outer field)).1
                  (b.Setup (b.Compile field placeholder).1).2.1
                  (b.Public (b.NewWitness assigment field).1).1
                  (b.GetNativeVerifierOptions outer field) = some e ∧
                compileCircuit b placeholder assigment outer field =
                  Run.fail [Stage.Compile, Stage.Setup, Stage.NewWitness, Stage.Prove,
                    Stage.Public, Stage.Verify] e) ∨
              (b.Verify (b.Prove (b.Compile field placeholder).1
                    (b.Setup (b.Compile field placeholder).1).1
                    (b.NewWitness assigment field).1
                    (b.GetNativeProverOptions outer field)).1
                  (b.Setup (b.Compile field placeholder).1).2.1
                  (b.Public (b.NewWitness assigment field).1).1
                  (b.GetNativeVerifierOptions outer field) = none ∧
                compileCircuit b placeholder assigment outer field =
                  { calls := [Stage.Compile, Stage.Setup, Stage.NewWitness, Stage.Prove,
                      Stage.Public, Stage.Verify],
                    ccs := some (b.Compile field placeholder).1,
                    publicWitness := some (b.Public (b.NewWitness assigment field).1).1,
                    proof := some (b.Prove (b.Compile field placeholder).1
                      (b.Setup (b.Compile field placeholder).1).1
                      (b.NewWitness assigment field).1
                      (b.GetNativeProverOptions outer field)).1,
                    vk := some (b.Setup (b.Compile field placeholder).1).2.1,
                    err := none }))))))))))) := by
  unfold compileCircuit
  simp only []
  rcases h1 : (b.Compile field placeholder).2 with _ | e1
  · right; refine ⟨rfl, ?_⟩
    rcases h2 : (b.Setup (b.Compile field placeholder).1).2.2 with _ | e2
    · right; refine ⟨rfl, ?_⟩
      rcases h3 : (b.NewWitness assigment field).2 with _ | e3
      · right; refine ⟨rfl, ?_⟩
        rcases h4 : (b.Prove (b.Compile field placeholder).1
            (b.Setup (b.Compile field placeholder).1).1 (b.NewWitness assigment field).1
            (b.GetNativeProverOptions outer field)).2 with _ | e4
        · right; refine ⟨rfl, ?_⟩
          rcases h5 : (b.Public (b.NewWitness assigment field).1).2 with _ | e5
          · right; refine ⟨rfl, ?_⟩
            rcases h6 : b.Verify (b.Prove (b.Compile field placeholder).1
                    (b.Setup (b.Compile field placeholder).1).1
                    (b.NewWitness assigment field).1
                    (b.GetNativeProverOptions outer field)).1
                  (b.Setup (b.Compile field placeholder).1).2.1
                  (b.Public (b.NewWitness assigment field).1).1
                  (b.GetNativeVerifierOptions outer field) with _ | e6
            · right; exact ⟨rfl, rfl⟩
            · left; exact ⟨e6, rfl, rfl⟩
          · left; exact ⟨e5, rfl, rfl⟩
        · left; exact ⟨e4, rfl, rfl⟩
      · left; exact ⟨e3, rfl, rfl⟩
    · left; exact ⟨e2, rfl, rfl⟩
  · left; exact ⟨e1, rfl, rfl⟩

/-- C6: no partial artifacts. Whatever the six stages return, when `compileCircuit`
returns a non-nil error, the constraint system, the public witness, the proof and the
verifying key it returns are all `nil`; this covers a failure of the last stage, after
every artifact was computed. -/
theorem compileCircuit_error_nil_artifacts (b : Backend Circuit Field CCS PK VK Wit Prf POpt VOpt Err)
    (placeholder assigment : Circuit) (outer field : Field)
    (h : (compileCircuit b placeholder assigment outer field).err ≠ none) :
    (compileCircuit b placeholder assigment outer field).ccs = none ∧
    (compileCircuit b placeholder assigment outer field).publicWitness = none ∧
    (compileCircuit b placeholder assigment outer field).proof = none ∧
    (compileCircuit b placeholder assigment outer field).vk = none := by
  rcases compileCircuit_cases b placeholder assigment outer field with
    ⟨e, -, hr⟩ | ⟨-, ⟨e, -, hr⟩ | ⟨-, ⟨e, -, hr⟩ | ⟨-, ⟨e, -, hr⟩ | ⟨-, ⟨e, -, hr⟩ |
      ⟨-, ⟨e, -, hr⟩ | ⟨-, hr⟩⟩⟩⟩⟩⟩
  all_goals rw [hr] at h ⊢
  all_goals first
    | exact ⟨rfl, rfl, rfl, rfl⟩
    | exact absurd rfl h

/-- C7: fail-fast propagation. With `errs` the errors of the six stages run in the order
of the source, each on the outputs of the stages before it, and `n` the number of leading
stages without error: `compileCircuit` returns a non-nil error exactly when one of the
stages returns one, the error returned is that of the first failing stage, unchanged, and
the stages invoked are the first `n + 1`, so none after the first failing one. -/
theorem compileCircuit_fail_fast (b : Backend Circuit Field CCS PK VK Wit Prf POpt VOpt Err)
    (placeholder assigment : Circuit) (outer field : Field) :
    let c := b.Compile field placeholder
    let s := b.Setup c.1
    let w := b.NewWitness assigment field
    let p := b.Prove c.1 s.1 w.1 (b.GetNativeProverOptions outer field)
    let pw := b.Public w.1
    let v := b.Verify p.1 s.2.1 pw.1 (b.GetNativeVerifierOptions outer field)
    let errs := [c.2, s.2.2, w.2, p.2, pw.2, v]
    let stages := [Stage.Compile, Stage.Setup, Stage.NewWitness, Stage.Prove,
      Stage.Public, Stage.Verify]
    let n := (errs.takeWhile Option.isNone).length
    let r := compileCircuit b placeholder assigment outer field
    (r.err ≠ none ↔ ∃ e ∈ errs, e ≠ none) ∧
    r.err = (errs.get? n).join ∧
    r.calls = stages.take (n + 1) := by
  simp only []
  rcases compileCircuit_cases b placeholder assigment outer field with
    ⟨e, h1, hr⟩ | ⟨h1, ⟨e, h2, hr⟩ | ⟨h2, ⟨e, h3, hr⟩ | ⟨h3, ⟨e, h4, hr⟩ | ⟨h4, ⟨e, h5, hr⟩ |
      ⟨h5, ⟨e, h6, hr⟩ | ⟨h6, hr⟩⟩⟩⟩⟩⟩
  all_goals rw [hr]
  all_goals simp [Run.fail, List.takeWhile, *]

/-- C5: round-trip pipeline. When `compileCircuit` returns a nil error, it returns a
proof, a verifying key and a public witness on which `groth16.Verify`, with the native
verifier options of `(outer, field)`, returns no error; any proof it returns is such a
proof; and when the witness stage or the prove stage returns an error, `compileCircuit`
returns an error and no proof. -/
theorem compileCircuit_roundtrip (b : Backend Circuit Field CCS PK VK Wit Prf POpt VOpt Err)
    (placeholder assigment : Circuit) (outer field : Field) :
    let r := compileCircuit b placeholder assigment outer field
    (r.err = none → ∃ proof vk pub, r.proof = some proof ∧ r.vk = some vk ∧
      r.publicWitness = some pub ∧
      b.Verify proof vk pub (b.GetNativeVerifierOptions outer field) = none) ∧
    (∀ proof, r.proof = some proof → ∃ vk pub, r.vk = some vk ∧
      r.publicWitness = some pub ∧
      b.Verify proof vk pub (b.GetNativeVerifierOptions outer field) = none) ∧
    ((b.NewWitness assigment field).2 ≠ none → r.err ≠ none ∧ r.proof = none) ∧
    ((b.Prove (b.Compile field placeholder).1 (b.Setup (b.Compile field placeholder).1).1
        (b.NewWitness assigment field).1 (b.GetNativeProverOptions outer field)).2 ≠ none →
      r.err ≠ none ∧ r.proof = none) := by
  simp only []
  rcases compileCircuit_cases b placeholder assigment outer field with
    ⟨e, h1, hr⟩ | ⟨h1, ⟨e, h2, hr⟩ | ⟨h2, ⟨e, h3, hr⟩ | ⟨h3, ⟨e, h4, hr⟩ | ⟨h4, ⟨e, h5, hr⟩ |
      ⟨h5, ⟨e, h6, hr⟩ | ⟨h6, hr⟩⟩⟩⟩⟩⟩
  all_goals rw [hr]
  all_goals simp [Run.fail, *]

/-- C10: pipeline wiring. When `compileCircuit` returns a nil error, the tuple it returns
is `(ccs, pub, proof, vk)` with `ccs` compiled from the placeholder over `field`,
`(pk, vk)` from `Setup(ccs)`, the full witness `w` built from the assignment over
`field`, `proof` from `Prove(ccs, pk, w, GetNativeProverOptions(outer, field))` and `pub`
the public part of `w`; every stage returned a nil error, the last one being `Verify` on
`(proof, vk, pub)` with `GetNativeVerifierOptions(outer, field)`. -/
theorem compileCircuit_wiring (b : Backend Circuit Field CCS PK VK Wit Prf POpt VOpt Err)
    (placeholder assigment : Circuit) (outer field : Field)
    (h : (compileCircuit b placeholder assigment outer field).err = none) :
    let ccs := (b.Compile field placeholder).1
    let pk := (b.Setup ccs).1
    let vk := (b.Setup ccs).2.1
    let w := (b.NewWitness assigment field).1
    let proof := (b.Prove ccs pk w (b.GetNativeProverOptions outer field)).1
    let pub := (b.Public w).1
    let r := compileCircuit b placeholder assigment outer field
    r.ccs = some ccs ∧ r.publicWitness = some pub ∧ r.proof = some proof ∧ r.vk = some vk ∧
    (b.Compile field placeholder).2 = none ∧ (b.Setup ccs).2.2 = none ∧
    (b.NewWitness assigment field).2 = none ∧
    (b.Prove ccs pk w (b.GetNativeProverOptions outer field)).2 = none ∧
    (b.Public w).2 = none ∧
    b.Verify proof vk pub (b.GetNativeVerifierOptions outer field) = none := by
  simp only []
  rcases compileCircuit_cases b placeholder assigment outer field with
    ⟨e, h1, hr⟩ | ⟨h1, ⟨e, h2, hr⟩ | ⟨h2, ⟨e, h3, hr⟩ | ⟨h3, ⟨e, h4, hr⟩ | ⟨h4, ⟨e, h5, hr⟩ |
      ⟨h5, ⟨e, h6, hr⟩ | ⟨h6, hr⟩⟩⟩⟩⟩⟩
  all_goals rw [hr] at h ⊢
  all_goals simp [Run.fail] at h
  simp [*]

end PipelineTheorems

/-- The case of a failure at the last stage: every artifact was computed, `Verify`
rejects, and all four returned artifacts are `nil`. -/
theorem compileCircuit_error_nil_artifacts_witness :
    (compileCircuit (toyBackend 1) 5 7 11 13).calls =
        [Stage.Compile, Stage.Setup, Stage.NewWitness, Stage.Prove, Stage.Public,
          Stage.Verify] ∧
      (compileCircuit (toyBackend 1) 5 7 11 13).err ≠ none ∧
      ((compileCircuit (toyBackend 1) 5 7 11 13).ccs = none ∧
        (compileCircuit (toyBackend 1) 5 7 11 13).publicWitness = none ∧
        (compileCircuit (toyBackend 1) 5 7 11 13).proof = none ∧
        (compileCircuit (toyBackend 1) 5 7 11 13).vk = none) :=
  ⟨by decide, by decide,
    compileCircuit_error_nil_artifacts (toyBackend 1) 5 7 11 13 (by decide)⟩

/-- A run that fails at the witness stage returns the error of that stage and invokes
nothing after it. -/
theorem compileCircuit_fail_fast_witness :
    (compileCircuit (toyBackend 0) 5 0 11 13).err = some 3 ∧
      (compileCircuit (toyBackend 0) 5 0 11 13).calls =
        [Stage.Compile, Stage.Setup, Stage.NewWitness] :=
  ⟨(compileCircuit_fail_fast (toyBackend 0) 5 0 11 13).2.1.trans (by decide),
    (compileCircuit_fail_fast (toyBackend 0) 5 0 11 13).2.2.trans (by decide)⟩

/-- A successful run of the small backend returns a proof that verifies. -/
theorem compileCircuit_roundtrip_witness :
    (compileCircuit (toyBackend 0) 5 7 11 13).err = none ∧
      ∃ proof vk pub, (compileCircuit (toyBackend 0) 5 7 11 13).proof = some proof ∧
        (compileCircuit (toyBackend 0) 5 7 11 13).vk = some vk ∧
        (compileCircuit (toyBackend 0) 5 7 11 13).publicWitness = some pub ∧
        (toyBackend 0).Verify proof vk pub ((toyBackend 0).GetNativeVerifierOptions 11 13) =
          none :=
  ⟨by decide, (compileCircuit_roundtrip (toyBackend 0) 5 7 11 13).1 (by decide)⟩

/-- A successful run of the small backend: the constraint system `5` is the placeholder,
the public witness `7` the assignment, the proof `12` the proof of that witness for that
constraint system. -/
theorem compileCircuit_wiring_witness :
    (compileCircuit (toyBackend 0) 5 7 11 13).err = none ∧
      (compileCircuit (toyBackend 0) 5 7 11 13).ccs = some 5 ∧
      (compileCircuit (toyBackend 0) 5 7 11 13).publicWitness = some 7 ∧
      (compileCircuit (toyBackend 0) 5 7 11 13).proof = some 12 ∧
      (compileCircuit (toyBackend 0) 5 7 11 13).vk = some 5 :=
  ⟨by decide,
    (compileCircuit_wiring (toyBackend 0) 5 7 11 13 (by decide)).1,
    (compileCircuit_wiring (toyBackend 0) 5 7 11 13 (by decide)).2.1,
    (compileCircuit_wiring (toyBackend 0) 5 7 11 13 (by decide)).2.2.1,
    (compileCircuit_wiring (toyBackend 0) 5 7 11 13 (by decide)).2.2.2.1⟩

/-! ## The printed forms tell integers apart -/

theorem digitChar_toNat {k : Nat} (h : k < 10) : (Nat.digitChar k).toNat - 48 = k := by
  interval_cases k <;> rfl

theorem digitChar_ne_minus {k : Nat} (h : k < 10) : Nat.digitChar k ≠ '-' := by
  interval_cases k <;> decide

/-- With enough fuel, `Nat.toDigitsCore` puts in front of the accumulator a text of digits
whose value, read in base ten, is the number printed. -/
theorem toDigitsCore_spec : ∀ (fuel n : Nat) (ds : List Char), n < fuel →
    ∃ pre : List Char, Nat.toDigitsCore 10 fuel n ds = pre ++ ds ∧
      pre.foldl (fun acc c => 10 * acc + (c.toNat - 48)) 0 = n ∧ ∀ c ∈ pre, c ≠ '-'
  | 0, _, _, h => absurd h (Nat.not_lt_zero _)
  | fuel + 1, n, ds, h => by
    have hd : n % 10 < 10 := Nat.mod_lt _ (by decide)
    by_cases h0 : n / 10 = 0
    · refine ⟨[Nat.digitChar (n % 10)], ?_, ?_, ?_⟩
      · simp [Nat.toDigitsCore, h0]
      · have hn : n % 10 = n := Nat.mod_eq_of_lt (by omega)
        simp only [List.foldl_cons, List.foldl_nil, Nat.mul_zero, Nat.zero_add]
        rw [digitChar_toNat hd]
        exact hn
      · intro c hc
        rw [List.mem_singleton] at hc
        rw [hc]
        exact digitChar_ne_minus hd
    · have hlt : n / 10 < fuel := by omega
      obtain ⟨pre, hpre, hval, hne⟩ :=
        toDigitsCore_spec fuel (n / 10) (Nat.digitChar (n % 10) :: ds) hlt
      refine ⟨pre ++ [Nat.digitChar (n % 10)], ?_, ?_, ?_⟩
      · simp [Nat.toDigitsCore, h0, hpre]
      · rw [List.foldl_append, hval]
        simp only [List.foldl_cons, List.foldl_nil, digitChar_toNat hd]
        omega
      · intro c hc
        rcases List.mem_append.mp hc with hc | hc
        · exact hne c hc
        · rw [List.mem_singleton] at hc
          rw [hc]
          exact digitChar_ne_minus hd

theorem toDigits_spec (n : Nat) :
    (Nat.toDigits 10 n).foldl (fun acc c => 10 * acc + (c.toNat - 48)) 0 = n ∧
      ∀ c ∈ Nat.toDigits 10 n, c ≠ '-' := by
  obtain ⟨pre, hpre, hval, hne⟩ := toDigitsCore_spec (n + 1) n [] (Nat.lt_succ_self n)
  rw [List.append_nil] at hpre
  unfold Nat.toDigits
  rw [hpre]
  exact ⟨hval, hne⟩

theorem toDigits_injective {a b : Nat} (h : Nat.toDigits 10 a = Nat.toDigits 10 b) : a = b := by
  rw [← (toDigits_spec a).1, ← (toDigits_spec b).1, h]

theorem printInt_injective {a b : Int} (h : printInt a = printInt b) : a = b := by
  cases a with
  | ofNat m =>
    cases b with
    | ofNat k =>
      simp only [printInt] at h
      rw [toDigits_injective h]
    | negSucc k =>
      simp only [printInt] at h
      exact absurd rfl ((toDigits_spec m).2 '-' (by rw [h]; exact List.mem_cons_self _ _))
  | negSucc m =>
    cases b with
    | ofNat k =>
      simp only [printInt] at h
      exact absurd rfl ((toDigits_spec k).2 '-' (by rw [← h]; exact List.mem_cons_self _ _))
    | negSucc k =>
      simp only [printInt, List.cons.injEq, true_and] at h
      have := toDigits_injective h
      have hk : m = k := by omega
      rw [hk]

theorem prettyInt_injective {a b : Int} (h : prettyInt a = prettyInt b) : a = b := by
  unfold prettyInt at h
  rw [List.append_assoc, List.append_assoc] at h
  exact printInt_injective (List.append_cancel_right (List.append_cancel_left h))

/-- Sorting by the printed forms gives the same list exactly for the lists that hold the
same integers with the same multiplicities. -/
theorem sortSlice_prettyInt_eq_iff (l m : List Int) :
    sortSlice prettyInt l = sortSlice prettyInt m ↔ l.Perm m := by
  unfold sortSlice
  constructor
  · intro h
    have hl := List.perm_insertionSort (fun a b => prettyInt a ≤ prettyInt b) l
    rw [h] at hl
    exact hl.symm.trans (List.perm_insertionSort _ m)
  · intro h
    haveI : IsTotal Int (fun a b => prettyInt a ≤ prettyInt b) := ⟨fun a b => le_total _ _⟩
    haveI : IsTrans Int (fun a b => prettyInt a ≤ prettyInt b) :=
      ⟨fun a b c h1 h2 => le_trans h1 h2⟩
    haveI : IsAntisymm Int (fun a b => prettyInt a ≤ prettyInt b) :=
      ⟨fun a b h1 h2 => prettyInt_injective (le_antisymm h1 h2)⟩
    apply List.eq_of_perm_of_sorted (r := fun a b => prettyInt a ≤ prettyInt b)
    · exact ((List.perm_insertionSort _ l).trans h).trans (List.perm_insertionSort _ m).symm
    · exact List.sorted_insertionSort _ l
    · exact List.sorted_insertionSort _ m

/-! ## Properties of the shape assertions -/

theorem equalInts_iff (a b : Slice Int) :
    equalInts a b = true ↔
      (a = none ∧ b = none) ∨ ∃ l m, a = some l ∧ b = some m ∧ l.Perm m := by
  cases a <;> cases b <;> simp [equalInts, sortSlice_prettyInt_eq_iff]

theorem equalEntries_iff : ∀ (xs ys : List (Slice Int)),
    equalEntries xs ys = true ↔ List.Forall₂ (fun a b => equalInts a b = true) xs ys
  | [], [] => by simp [equalEntries]
  | [], _ :: _ => by simp [equalEntries]
  | _ :: _, [] => by simp [equalEntries]
  | a :: xs, b :: ys => by simp [equalEntries, equalEntries_iff xs ys]

/-- The verdict of `qt.ContentEquals` on two values of type `[][]int`, said without the
comparison functions. -/
theorem ContentEquals_iff (got want : Slice (Slice Int)) :
    ContentEquals got want = true ↔
      (got = none ∧ want = none) ∨
      ∃ xs ys, got = some xs ∧ want = some ys ∧
        List.Forall₂
          (fun a b => (a = none ∧ b = none) ∨ ∃ l m, a = some l ∧ b = some m ∧ l.Perm m)
          (sortSlice prettyInts xs) (sortSlice prettyInts ys) := by
  cases got <;> cases want <;> simp [ContentEquals, equalEntries_iff, equalInts_iff]

theorem ContentEquals_self (xs : Slice (Slice Int)) : ContentEquals xs xs = true := by
  rw [ContentEquals_iff]
  cases xs with
  | none => exact Or.inl ⟨rfl, rfl⟩
  | some l =>
    refine Or.inr ⟨l, l, rfl, rfl, ?_⟩
    apply List.forall₂_same.mpr
    intro a _
    cases a with
    | none => exact Or.inl ⟨rfl, rfl⟩
    | some m => exact Or.inr ⟨m, m, rfl, rfl, List.Perm.refl _⟩

theorem ContentEquals_symm {xs ys : Slice (Slice Int)} (h : ContentEquals xs ys = true) :
    ContentEquals ys xs = true := by
  rw [ContentEquals_iff] at h ⊢
  rcases h with ⟨h1, h2⟩ | ⟨l, m, h1, h2, h3⟩
  · exact Or.inl ⟨h2, h1⟩
  · refine Or.inr ⟨m, l, h2, h1, ?_⟩
    apply List.Forall₂.flip
    refine h3.imp ?_
    rintro a b (⟨ha, hb⟩ | ⟨p, q, ha, hb, hp⟩)
    · exact Or.inl ⟨hb, ha⟩
    · exact Or.inr ⟨q, p, hb, ha, hp.symm⟩

theorem checkShapeEquivalent_unfold {G : Type} (A B : VerifyingKey G) :
    checkShapeEquivalent A B = true ↔
      B.G1.K.length = A.G1.K.length ∧ B.CommitmentKeys.length = A.CommitmentKeys.length ∧
      ContentEquals B.PublicAndCommitmentCommitted A.PublicAndCommitmentCommitted = true := by
  unfold checkShapeEquivalent HasLen
  by_cases h1 : B.G1.K.length = A.G1.K.length
  · by_cases h2 : B.CommitmentKeys.length = A.CommitmentKeys.length
    · simp [h1, h2]
    · simp [h1, h2]
  · simp [h1]

theorem forall₂_partner {α β : Type} {R : α → β → Prop} {xs : List α} {ys : List β}
    (h : List.Forall₂ R xs ys) {a : α} (ha : a ∈ xs) : ∃ b ∈ ys, R a b := by
  induction h with
  | nil => simp at ha
  | cons hab _ ih =>
    rcases List.mem_cons.mp ha with rfl | ha
    · exact ⟨_, List.mem_cons_self _ _, hab⟩
    · obtain ⟨b, hb, hr⟩ := ih ha
      exact ⟨b, List.mem_cons_of_mem _ hb, hr⟩

/-- When `qt.ContentEquals` accepts, every integer of an entry of the first value is an
integer of an entry of the second. -/
theorem ContentEquals_index_mem {got want : Slice (Slice Int)}
    (h : ContentEquals got want = true) {i : Int}
    (hi : ∃ l, some l ∈ got.getD [] ∧ i ∈ l) : ∃ l, some l ∈ want.getD [] ∧ i ∈ l := by
  rcases (ContentEquals_iff got want).mp h with ⟨h1, _⟩ | ⟨xs, ys, h1, h2, h3⟩
  · obtain ⟨l, hl, _⟩ := hi
    simp [h1] at hl
  · obtain ⟨l, hl, hil⟩ := hi
    rw [h1] at hl
    have hl2 : some l ∈ sortSlice prettyInts xs :=
      (List.perm_insertionSort _ xs).symm.subset hl
    obtain ⟨b, hb, hr⟩ := forall₂_partner h3 hl2
    rcases hr with ⟨hn, _⟩ | ⟨p, q, hp, hq, hpq⟩
    · simp at hn
    · have hpl : p = l := by simpa using hp.symm
      refine ⟨q, ?_, ?_⟩
      · rw [h2, ← hq]
        exact (List.perm_insertionSort _ ys).subset hb
      · exact hpq.subset (hpl ▸ hil)

/-- C2, as amended: shape equivalence. The three assertions succeed exactly when the two
keys have the same number of entries in `G1.K`, the same number of commitment keys, and
committed indices that `qt.ContentEquals` accepts: both values are the nil slice, or
neither is and, once each outer slice is sorted by the printed forms of its entries,
the two have the same length and at every position the two entries are both the nil
slice or both hold the same integers with the same multiplicities. When they succeed,
the two keys have the same number of index lists and the same set of committed indices;
the converse fails, the comparison counts multiplicities. -/
theorem checkShapeEquivalent_iff_content {F : Type} (A B : VerifyingKey F) :
    (checkShapeEquivalent A B = true ↔
      A.G1.K.length = B.G1.K.length ∧
      A.CommitmentKeys.length = B.CommitmentKeys.length ∧
      ((A.PublicAndCommitmentCommitted = none ∧ B.PublicAndCommitmentCommitted = none) ∨
        ∃ xs ys, A.PublicAndCommitmentCommitted = some xs ∧
          B.PublicAndCommitmentCommitted = some ys ∧
          List.Forall₂
            (fun a b => (a = none ∧ b = none) ∨ ∃ l m, a = some l ∧ b = some m ∧ l.Perm m)
            (sortSlice prettyInts xs) (sortSlice prettyInts ys))) ∧
    (checkShapeEquivalent A B = true →
      (A.PublicAndCommitmentCommitted.getD []).length =
        (B.PublicAndCommitmentCommitted.getD []).length ∧
      ∀ i : Int, (∃ l, some l ∈ A.PublicAndCommitmentCommitted.getD [] ∧ i ∈ l) ↔
        (∃ l, some l ∈ B.PublicAndCommitmentCommitted.getD [] ∧ i ∈ l)) := by
  constructor
  · rw [checkShapeEquivalent_unfold]
    constructor
    · rintro ⟨h1, h2, h3⟩
      exact ⟨h1.symm, h2.symm, (ContentEquals_iff _ _).mp (ContentEquals_symm h3)⟩
    · rintro ⟨h1, h2, h3⟩
      exact ⟨h1.symm, h2.symm, ContentEquals_symm ((ContentEquals_iff _ _).mpr h3)⟩
  · intro h
    obtain ⟨-, -, h3⟩ := (checkShapeEquivalent_unfold A B).mp h
    refine ⟨?_, fun i => ⟨ContentEquals_index_mem (ContentEquals_symm h3),
      ContentEquals_index_mem h3⟩⟩
    rcases (ContentEquals_iff _ _).mp h3 with ⟨h1, h2⟩ | ⟨xs, ys, h1, h2, h4⟩
    · rw [h1, h2]
    · rw [h1, h2]
      have hlen := h4.length_eq
      unfold sortSlice at hlen
      rw [(List.perm_insertionSort _ xs).length_eq,
        (List.perm_insertionSort _ ys).length_eq] at hlen
      exact hlen.symm

/-- Two keys whose committed indices differ only in the order of the entries pass the
shape assertions. -/
theorem checkShapeEquivalent_iff_content_witness :
    shapeKeyA.PublicAndCommitmentCommitted ≠ shapeKeyC.PublicAndCommitmentCommitted ∧
      checkShapeEquivalent shapeKeyA shapeKeyC = true ∧
      (shapeKeyA.G1.K.length = shapeKeyC.G1.K.length ∧
        shapeKeyA.CommitmentKeys.length = shapeKeyC.CommitmentKeys.length) ∧
      (shapeKeyA.PublicAndCommitmentCommitted.getD []).length =
        (shapeKeyC.PublicAndCommitmentCommitted.getD []).length :=
  ⟨by decide, by decide,
    ⟨((checkShapeEquivalent_iff_content shapeKeyA shapeKeyC).1.mp (by decide)).1,
      ((checkShapeEquivalent_iff_content shapeKeyA shapeKeyC).1.mp (by decide)).2.1⟩,
    ((checkShapeEquivalent_iff_content shapeKeyA shapeKeyC).2 (by decide)).1⟩

/-- C2 fails as stated: `shapeKeyA` and `shapeKeyB` have the same number of entries in
`G1.K`, the same number of commitment keys and the same set of committed indices (as a
set of index lists, as a set of index sets, and as a set of indices), and the shape
assertions fail on them, because the entry `[1]` occurs once in one and twice in the
other. -/
theorem checkShapeEquivalent_set_counterexample :
    shapeKeyA.PublicAndCommitmentCommitted = some [some [], some [], some [1]] ∧
      shapeKeyB.PublicAndCommitmentCommitted = some [some [], some [1], some [1]] ∧
      shapeKeyA.G1.K.length = shapeKeyB.G1.K.length ∧
      shapeKeyA.CommitmentKeys.length = shapeKeyB.CommitmentKeys.length ∧
      (shapeKeyA.PublicAndCommitmentCommitted.getD []).toFinset =
        (shapeKeyB.PublicAndCommitmentCommitted.getD []).toFinset ∧
      ((shapeKeyA.PublicAndCommitmentCommitted.getD []).map
          (fun s => (s.getD []).toFinset)).toFinset =
        ((shapeKeyB.PublicAndCommitmentCommitted.getD []).map
          (fun s => (s.getD []).toFinset)).toFinset ∧
      ((shapeKeyA.PublicAndCommitmentCommitted.getD []).flatMap
          (fun s => s.getD [])).toFinset =
        ((shapeKeyB.PublicAndCommitmentCommitted.getD []).flatMap
          (fun s => s.getD [])).toFinset ∧
      checkShapeEquivalent shapeKeyA shapeKeyB = false := by
  decide

/-! ## Properties of the branchless selection -/

section SelectTheorems

variable {F : Type} [CommRing F]

theorem combine_zero (a b : F) : combine 0 a b = a := by
  simp [combine]

theorem combine_one (a b : F) : combine 1 a b = b := by
  simp [combine]

theorem zipWith_left_of_length_le {α β : Type} (f : α → β → α) (hf : ∀ a b, f a b = a) :
    ∀ (l0 : List α) (l1 : List β), l0.length ≤ l1.length → List.zipWith f l0 l1 = l0
  | [], _, _ => by simp
  | _ :: _, [], h => by simp at h
  | a :: l0, b :: l1, h => by
    have h2 : l0.length ≤ l1.length := by simpa using h
    simp [hf, zipWith_left_of_length_le f hf l0 l1 h2]

theorem zipWith_right_of_length_le {α β : Type} (f : α → β → β) (hf : ∀ a b, f a b = b) :
    ∀ (l0 : List α) (l1 : List β), l1.length ≤ l0.length → List.zipWith f l0 l1 = l1
  | _, [], _ => by simp
  | [], _ :: _, h => by simp at h
  | a :: l0, b :: l1, h => by
    have h2 : l1.length ≤ l0.length := by simpa using h
    simp [hf, zipWith_right_of_length_le f hf l0 l1 h2]

/-- With at least as many entries in the second candidate, the flag `0` gives back the
first candidate. -/
theorem select_zero (vk0 vk1 : VerifyingKey F)
    (hK : vk0.G1.K.length ≤ vk1.G1.K.length)
    (hC : vk0.CommitmentKeys.length ≤ vk1.CommitmentKeys.length) :
    select vk0 vk1 0 = vk0 := by
  unfold select
  rw [zipWith_left_of_length_le (combine 0) combine_zero _ _ hK,
    zipWith_left_of_length_le (fun k0 k1 => (combine 0 k0.1 k1.1, combine 0 k0.2 k1.2))
      (fun a b => by simp [combine_zero]) _ _ hC]
  simp [combine_zero]

/-- With at least as many entries in the first candidate, the flag `1` gives the values
of the second candidate, with the committed indices of the first. -/
theorem select_one (vk0 vk1 : VerifyingKey F)
    (hK : vk1.G1.K.length ≤ vk0.G1.K.length)
    (hC : vk1.CommitmentKeys.length ≤ vk0.CommitmentKeys.length) :
    select vk0 vk1 1 =
      { vk1 with PublicAndCommitmentCommitted := vk0.PublicAndCommitmentCommitted } := by
  unfold select
  rw [zipWith_right_of_length_le (combine 1) combine_one _ _ hK,
    zipWith_right_of_length_le (fun k0 k1 => (combine 1 k0.1 k1.1, combine 1 k0.2 k1.2))
      (fun a b => by simp [combine_one]) _ _ hC]
  simp [combine_one]

/-- C1, as amended: select correctness for two candidates. For keys `vk0`, `vk1` that pass
the shape assertions, `select [vk0, vk1] [0]` is `vk0`; `select [vk0, vk1] [1]` equals
`vk1` in every circuit value, that is `E`, every entry of `G1.K`, the two `G2` elements
and every commitment key, and its committed indices, which are native shape data, are
those of `vk0`: the shape assertions accept them against those of `vk1`, and the result
is `vk1` itself when the two keys list the same committed indices. The method `Switch`
called by `OuterCircuit.Define` is this selection with `vk0 = Dummy` and `vk1 = Vk`, and
returns no error. -/
theorem select_correct (vk0 vk1 : VerifyingKey F)
    (h : checkShapeEquivalent vk0 vk1 = true) :
    select vk0 vk1 0 = vk0 ∧
    ((select vk0 vk1 1).E = vk1.E ∧
      (select vk0 vk1 1).G1.K = vk1.G1.K ∧
      (select vk0 vk1 1).G2.GammaNeg = vk1.G2.GammaNeg ∧
      (select vk0 vk1 1).G2.DeltaNeg = vk1.G2.DeltaNeg ∧
      (select vk0 vk1 1).CommitmentKeys = vk1.CommitmentKeys ∧
      (select vk0 vk1 1).PublicAndCommitmentCommitted = vk0.PublicAndCommitmentCommitted ∧
      ContentEquals (select vk0 vk1 1).PublicAndCommitmentCommitted
        vk1.PublicAndCommitmentCommitted = true) ∧
    (vk0.PublicAndCommitmentCommitted = vk1.PublicAndCommitmentCommitted →
      select vk0 vk1 1 = vk1) ∧
    (∀ (Err : Type) (b : F),
      (VerifiyingAndDummyKey.Switch { Vk := vk1, Dummy := vk0 } b :
        VerifyingKey F × Option Err) = (select vk0 vk1 b, none)) := by
  obtain ⟨hK, hC, hP⟩ := (checkShapeEquivalent_unfold vk0 vk1).mp h
  refine ⟨select_zero vk0 vk1 hK.symm.le hC.symm.le, ?_, fun hidx => ?_, fun _ _ => rfl⟩
  · rw [select_one vk0 vk1 hK.le hC.le]
    exact ⟨rfl, rfl, rfl, rfl, rfl, rfl, ContentEquals_symm hP⟩
  · rw [select_one vk0 vk1 hK.le hC.le, hidx]

end SelectTheorems

/-- Two keys that pass the shape assertions with committed indices in different orders:
the selection gives back the first candidate at the flag `0` and the circuit values of
the second at the flag `1`. -/
theorem select_correct_witness :
    checkShapeEquivalent shapeKeyA shapeKeyC = true ∧
      select shapeKeyA shapeKeyC 0 = shapeKeyA ∧
      (select shapeKeyA shapeKeyC 1).G1.K = shapeKeyC.G1.K ∧
      (select shapeKeyA shapeKeyC 1).CommitmentKeys = shapeKeyC.CommitmentKeys :=
  ⟨by decide, (select_correct shapeKeyA shapeKeyC (by decide)).1,
    (select_correct shapeKeyA shapeKeyC (by decide)).2.1.2.1,
    (select_correct shapeKeyA shapeKeyC (by decide)).2.1.2.2.2.2.1⟩

/-- C1 fails as stated: `shapeKeyA` and `shapeKeyC` pass the shape assertions in both
orders and hold the same committed indices in different orders, and the selection at the
flag `1` is not `shapeKeyC`: its committed indices are not those of `shapeKeyC`. No
selection whose native committed indices are independent of the flag, as a branchless
selection has them, returns both candidates. -/
theorem select_order_counterexample :
    checkShapeEquivalent shapeKeyA shapeKeyC = true ∧
      checkShapeEquivalent shapeKeyC shapeKeyA = true ∧
      (shapeKeyA.PublicAndCommitmentCommitted.getD []).toFinset =
        (shapeKeyC.PublicAndCommitmentCommitted.getD []).toFinset ∧
      select shapeKeyA shapeKeyC 1 ≠ shapeKeyC ∧
      (select shapeKeyA shapeKeyC 1).PublicAndCommitmentCommitted ≠
        shapeKeyC.PublicAndCommitmentCommitted ∧
      (∀ sel : VerifyingKey Int → VerifyingKey Int → Int → VerifyingKey Int,
        (∀ a b x y, (sel a b x).PublicAndCommitmentCommitted =
          (sel a b y).PublicAndCommitmentCommitted) →
        sel shapeKeyA shapeKeyC 0 ≠ shapeKeyA ∨ sel shapeKeyA shapeKeyC 1 ≠ shapeKeyC) := by
  refine ⟨by decide, by decide, by decide, by decide, by decide, fun sel hsel => ?_⟩
  by_contra hne
  rw [not_or, not_not, not_not] at hne
  have h := hsel shapeKeyA shapeKeyC 0 1
  rw [hne.1, hne.2] at h
  exact absurd h (by decide)

/-! ## Properties of `OuterCircuit.Define` -/

section DefineTheorems

variable {F Prf Wit Err : Type} [CommRing F]

theorem ToBinary_get? (modulus v i : Nat) (h : i < Nat.size modulus) :
    (ToBinary modulus v : List F).get? i = some (binaryDigit (v % modulus) i) := by
  simp [ToBinary, List.getElem?_range h, h]

/-- The five ways a run of `Define` can go once the verifier is built, in a field of at
least two bits: a failing call in one of the four positions, or none. -/
theorem Define_cases (api : CircuitAPI F Prf Wit Err) (c : OuterCircuit F Prf Wit)
    (hn : 2 ≤ api.FieldBitLen) (hv : api.NewVerifier = none) :
    (∃ e, (api.Switch c.VerificationKey (binaryDigit (c.Selector % api.Modulus) 0)).2 =
        some e ∧
      Define api c =
        { calls := [Call.Switch (binaryDigit (c.Selector % api.Modulus) 0)],
          result := Outcome.error e }) ∨
    ((api.Switch c.VerificationKey (binaryDigit (c.Selector % api.Modulus) 0)).2 = none ∧
      ((∃ e, api.AssertProof
            (api.Switch c.VerificationKey (binaryDigit (c.Selector % api.Modulus) 0)).1
            (c.Proofs 0) (c.PublicInputs 0) = some e ∧
        Define api c =
          { calls := [Call.Switch (binaryDigit (c.Selector % api.Modulus) 0),
              Call.AssertProof
                (api.Switch c.VerificationKey (binaryDigit (c.Selector % api.Modulus) 0)).1
                (c.Proofs 0) (c.PublicInputs 0)],
            result := Outcome.error e }) ∨
      (api.AssertProof
            (api.Switch c.VerificationKey (binaryDigit (c.Selector % api.Modulus) 0)).1
            (c.Proofs 0) (c.PublicInputs 0) = none ∧
        ((∃ e, (api.Switch c.VerificationKey
              (binaryDigit (c.Selector % api.Modulus) 1)).2 = some e ∧
          Define api c =
            { calls := [Call.Switch (binaryDigit (c.Selector % api.Modulus) 0),
                Call.AssertProof
                  (api.Switch c.VerificationKey
                    (binaryDigit (c.Selector % api.Modulus) 0)).1
                  (c.Proofs 0) (c.PublicInputs 0),
                Call.Switch (binaryDigit (c.Selector % api.Modulus) 1)],
              result := Outcome.error e }) ∨
        ((api.Switch c.VerificationKey (binaryDigit (c.Selector % api.Modulus) 1)).2 = none ∧
          ((∃ e, api.AssertProof
                (api.Switch c.VerificationKey
                  (binaryDigit (c.Selector % api.Modulus) 1)).1
                (c.Proofs 1) (c.PublicInputs 1) = some e ∧
            Define api c =
              { calls := [Call.Switch (binaryDigit (c.Selector % api.Modulus) 0),
                  Call.AssertProof
                    (api.Switch c.VerificationKey
                      (binaryDigit (c.Selector % api.Modulus) 0)).1
                    (c.Proofs 0) (c.PublicInputs 0),
                  Call.Switch (binaryDigit (c.Selector % api.Modulus) 1),
                  Call.AssertProof
                    (api.Switch c.VerificationKey
                      (binaryDigit (c.Selector % api.Modulus) 1)).1
                    (c.Proofs 1) (c.PublicInputs 1)],
                result := Outcome.error e }) ∨
          (api.AssertProof
                (api.Switch c.VerificationKey
                  (binaryDigit (c.Selector % api.Modulus) 1)).1
                (c.Proofs 1) (c.PublicInputs 1) = none ∧
            Define api c =
              { calls := [Call.Switch (binaryDigit (c.Selector % api.Modulus) 0),
                  Call.AssertProof
                    (api.Switch c.VerificationKey
                      (binaryDigit (c.Selector % api.Modulus) 0)).1
                    (c.Proofs 0) (c.PublicInputs 0),
                  Call.Switch (binaryDigit (c.Selector % api.Modulus) 1),
                  Call.AssertProof
                    (api.Switch c.VerificationKey
                      (binaryDigit (c.Selector % api.Modulus) 1)).1
                    (c.Proofs 1) (c.PublicInputs 1)],
                result := Outcome.nil }))))))) := by
  have hsize : 2 ≤ Nat.size api.Modulus := hn
  have hfin : List.finRange 2 = [0, 1] := by decide
  have g0 : (ToBinary api.Modulus c.Selector : List F).get? 0 =
      some (binaryDigit (c.Selector % api.Modulus) 0) := ToBinary_get? _ _ _ (by omega)
  have g1 : (ToBinary api.Modulus c.Selector : List F).get? 1 =
      some (binaryDigit (c.Selector % api.Modulus) 1) := ToBinary_get? _ _ _ (by omega)
  unfold Define
  simp only [hv, hfin, Define.loop, Fin.val_zero, Fin.val_one, g0, g1, List.nil_append,
    List.cons_append, List.singleton_append, Fin.zero_eta, Fin.mk_one]
  rcases h1 : (api.Switch c.VerificationKey (binaryDigit (c.Selector % api.Modulus) 0)).2
    with _ | e1
  · right; refine ⟨rfl, ?_⟩
    rcases h2 : api.AssertProof
        (api.Switch c.VerificationKey (binaryDigit (c.Selector % api.Modulus) 0)).1
        (c.Proofs 0) (c.PublicInputs 0) with _ | e2
    · right; refine ⟨rfl, ?_⟩
      rcases h3 : (api.Switch c.VerificationKey
          (binaryDigit (c.Selector % api.Modulus) 1)).2 with _ | e3
      · right; refine ⟨rfl, ?_⟩
        rcases h4 : api.AssertProof
            (api.Switch c.VerificationKey (binaryDigit (c.Selector % api.Modulus) 1)).1
            (c.Proofs 1) (c.PublicInputs 1) with _ | e4
        · right; exact ⟨rfl, rfl⟩
        · left; exact ⟨e4, rfl, rfl⟩
      · left; exact ⟨e3, rfl, rfl⟩
    · left; exact ⟨e2, rfl, rfl⟩
  · left; exact ⟨e1, rfl, rfl⟩

/-- C3, as amended: per-slot selection and assertion in `OuterCircuit.Define`, in a field
of at least two bits. When `NewVerifier` returns an error, `Define` returns it and makes
no call for any slot. Otherwise, with `sw i` the result of `Switch` on bit `i` of the
binary decomposition of `Selector`, an element of the circuit field, and `chk i` the
error of `AssertProof(key of sw i, Proofs[i], PublicInputs[i])`: `Define` returns `nil`
exactly when every `Switch` and every `AssertProof` of the two slots returns `nil`;
otherwise it returns the error of the first failing call in slot order; and the calls
made are the calls up to and including that one, none after it. -/
theorem Define_per_slot (api : CircuitAPI F Prf Wit Err) (c : OuterCircuit F Prf Wit)
    (hn : 2 ≤ api.FieldBitLen) :
    let sw : Fin 2 → VerifyingKey F × Option Err :=
      fun i => api.Switch c.VerificationKey (binaryDigit (c.Selector % api.Modulus) i)
    let chk : Fin 2 → Option Err :=
      fun i => api.AssertProof (sw i).1 (c.Proofs i) (c.PublicInputs i)
    let errs := [(sw 0).2, chk 0, (sw 1).2, chk 1]
    let calls := [Call.Switch (binaryDigit (c.Selector % api.Modulus) 0),
      Call.AssertProof (sw 0).1 (c.Proofs 0) (c.PublicInputs 0),
      Call.Switch (binaryDigit (c.Selector % api.Modulus) 1),
      Call.AssertProof (sw 1).1 (c.Proofs 1) (c.PublicInputs 1)]
    let n := (errs.takeWhile Option.isNone).length
    let r := Define api c
    (∀ e, api.NewVerifier = some e → r.result = Outcome.error e ∧ r.calls = []) ∧
    (api.NewVerifier = none →
      (r.result = Outcome.nil ↔ ∀ i : Fin 2, (sw i).2 = none ∧ chk i = none) ∧
      r.result = (match (errs.get? n).join with
        | none => Outcome.nil
        | some e => Outcome.error e) ∧
      r.calls = calls.take (n + 1)) := by
  simp only []
  refine ⟨fun e he => by simp [Define, he], fun hv => ?_⟩
  rcases Define_cases api c hn hv with
    ⟨e, h1, hr⟩ | ⟨h1, ⟨e, h2, hr⟩ | ⟨h2, ⟨e, h3, hr⟩ | ⟨h3, ⟨e, h4, hr⟩ | ⟨h4, hr⟩⟩⟩⟩
  all_goals rw [hr]
  all_goals simp [Fin.forall_fin_two, List.takeWhile, *]

end DefineTheorems

/-! ## Concrete runs of `OuterCircuit.Define` -/

theorem BW6_761_ScalarField_size : Nat.size BW6_761_ScalarField = 377 := by
  apply le_antisymm
  · exact Nat.size_le.mpr (by unfold BW6_761_ScalarField; norm_num)
  · exact Nat.lt_size.mpr (by unfold BW6_761_ScalarField; norm_num)

theorem demoAPI_fieldBitLen (e : Option Nat) : 2 ≤ (demoAPI e).FieldBitLen := by
  show 2 ≤ Nat.size BW6_761_ScalarField
  rw [BW6_761_ScalarField_size]
  decide

/-- C3 fails as stated: with a failing `NewVerifier`, every `Switch` and every
`AssertProof` of the two slots returns `nil`, no call of either kind is made, and
`Define` returns the error of `NewVerifier`, not `nil`. -/
theorem Define_newVerifier_counterexample :
    (∀ i : Fin 2,
        ((demoAPI (some 7)).Switch demoKeys
          (binaryDigit (1 % (demoAPI (some 7)).Modulus) i)).2 = none ∧
        (demoAPI (some 7)).AssertProof
          ((demoAPI (some 7)).Switch demoKeys
            (binaryDigit (1 % (demoAPI (some 7)).Modulus) i)).1
          ((demoOuter 1).Proofs i) ((demoOuter 1).PublicInputs i) = none) ∧
      (Define (demoAPI (some 7)) (demoOuter 1)).calls = [] ∧
      (Define (demoAPI (some 7)) (demoOuter 1)).result = Outcome.error 7 ∧
      (Define (demoAPI (some 7)) (demoOuter 1)).result ≠ Outcome.nil := by
  refine ⟨fun i => ⟨rfl, rfl⟩, ?_, ?_, ?_⟩ <;> simp [Define, demoAPI]

/-- The example circuit with `Selector = 1`: the verifier is built, no call fails, and
`Define` returns `nil` after the four calls of the two slots. -/
theorem Define_per_slot_witness :
    (2 ≤ (demoAPI none).FieldBitLen) ∧
      (Define (demoAPI none) (demoOuter 1)).result = Outcome.nil ∧
      (Define (demoAPI none) (demoOuter 1)).calls =
        [Call.Switch 1, Call.AssertProof realKey ((demoOuter 1).Proofs 0) [0],
          Call.Switch 0, Call.AssertProof dummyKey ((demoOuter 1).Proofs 1) [1]] :=
  ⟨demoAPI_fieldBitLen none,
    ((Define_per_slot (demoAPI none) (demoOuter 1) (demoAPI_fieldBitLen none)).2
      rfl).2.1.trans (by decide),
    ((Define_per_slot (demoAPI none) (demoOuter 1) (demoAPI_fieldBitLen none)).2
      rfl).2.2.trans (by decide)⟩

/-! ## The selector of the end-to-end test -/

theorem nBits_toNat {bits : Int} (h : 0 < bits) : (nBits bits).toNat = 2 ^ bits.toNat - 1 := by
  rw [nBits_pos h, Int.toNat_ofNat]

theorem binaryDigit_nBits {F : Type} [CommRing F] {k : Int} (h : 1 ≤ k) (i : Nat) :
    (binaryDigit (nBits k).toNat i : F) = if (i : Int) < k then 1 else 0 := by
  have hk : 0 < k := by omega
  unfold binaryDigit
  rw [nBits_toNat hk, Nat.testBit_two_pow_sub_one]
  have e : (i < k.toNat) ↔ ((i : Int) < k) := by omega
  simp [e]

theorem nBits_one_toNat : (nBits 1).toNat = 1 := by decide

set_option exponentiation.threshold 400

theorem nBits_376_lt : nBits 376 < (BW6_761_ScalarField : Int) := by
  have h : nBits 376 = ((2 ^ 376 - 1 : Nat) : Int) := nBits_pos (by decide)
  have h2 : (2 ^ 376 - 1 : Nat) < BW6_761_ScalarField := by
    unfold BW6_761_ScalarField
    norm_num
  rw [h]
  exact_mod_cast h2

theorem nBits_lt_BW6_761_iff {k : Int} (hk : 1 ≤ k) :
    nBits k < (BW6_761_ScalarField : Int) ↔ k ≤ 376 := by
  have hk0 : 0 < k := by omega
  have hlo : (2 ^ 376 - 1 : Nat) < BW6_761_ScalarField := by
    unfold BW6_761_ScalarField
    norm_num
  have hhi : BW6_761_ScalarField ≤ (2 ^ 377 - 1 : Nat) := by
    unfold BW6_761_ScalarField
    norm_num
  rw [nBits_pos hk0]
  constructor
  · intro h
    by_contra hgt
    have h377 : 377 ≤ k.toNat := by omega
    have hpow : 2 ^ 377 ≤ 2 ^ k.toNat := Nat.pow_le_pow_right (by decide) h377
    have hlt : (2 ^ k.toNat - 1 : Nat) < BW6_761_ScalarField := by exact_mod_cast h
    omega
  · intro h
    have h376 : k.toNat ≤ 376 := by omega
    have hpow : 2 ^ k.toNat ≤ 2 ^ 376 := Nat.pow_le_pow_right (by decide) h376
    have hlt : (2 ^ k.toNat - 1 : Nat) < BW6_761_ScalarField := by omega
    exact_mod_cast hlt

theorem nBits_377_toNat : (nBits 377).toNat = 2 ^ 377 - 1 := nBits_toNat (by decide)

theorem nBits_377_ge : (BW6_761_ScalarField : Int) ≤ nBits 377 := by
  have h : nBits 377 = ((2 ^ 377 - 1 : Nat) : Int) := nBits_pos (by decide)
  have h2 : BW6_761_ScalarField ≤ (2 ^ 377 - 1 : Nat) := by
    unfold BW6_761_ScalarField
    norm_num
  rw [h]
  exact_mod_cast h2

theorem nBits_377_digits :
    (binaryDigit ((nBits 377).toNat % BW6_761_ScalarField) 0 : Int) = 0 ∧
      (binaryDigit ((nBits 377).toNat % BW6_761_ScalarField) 1 : Int) = 1 := by
  have hm : (2 ^ 377 - 1) % BW6_761_ScalarField =
      49163747396362774835277267087478449315791950295596641553461779553949232991481135126705066976715043319361459716094 := by
    unfold BW6_761_ScalarField
    norm_num
  rw [nBits_377_toNat, hm]
  exact ⟨by decide, by decide⟩

/-- C8, as amended: end-to-end selector decomposition. For every `k ≥ 1` and every `i`,
bit `i` of the integer `nBits k` is set exactly when `i < k`. The circuit decomposes the
Selector as an element of its field: for every `k ≥ 1` with `nBits k` below the modulus
(over the scalar field of BW6-761, for `k ≤ 376`) and every digit index `i` below the bit
length of the field, digit `i` of `bits.ToBinary` on `nBits k` is `1` exactly when
`i < k`. In particular `nBits 1 = 1`: in
a field of at least two bits, when `NewVerifier` returns no error and the two keys pass
the shape assertions, `Define` with the modelled `Switch` processes slot 0 with the flag
`1` and checks it against a key that has every circuit value of the real key `Vk` and
the committed indices of `Dummy` (it is `Vk` when the two keys list the same committed
indices); and when that `AssertProof` returns no error, it processes slot 1 with the
flag `0` and checks it against the dummy key. -/
theorem selector_decomposition :
    (∀ (k : Int) (i : Nat), 1 ≤ k → ((nBits k).testBit i = true ↔ (i : Int) < k)) ∧
    (∀ (F : Type) [CommRing F] (modulus : Nat) (k : Int) (i : Nat), 1 ≤ k →
      nBits k < (modulus : Int) → i < Nat.size modulus →
      (ToBinary modulus (nBits k).toNat : List F).get? i =
        some (if (i : Int) < k then 1 else 0)) ∧
    (∀ k : Int, 1 ≤ k → (nBits k < (BW6_761_ScalarField : Int) ↔ k ≤ 376)) ∧
    nBits 1 = 1 ∧
    (∀ (F Prf Wit Err : Type) [CommRing F] (api : CircuitAPI F Prf Wit Err)
      (c : OuterCircuit F Prf Wit),
      2 ≤ api.FieldBitLen → api.NewVerifier = none →
      api.Switch = VerifiyingAndDummyKey.Switch →
      c.Selector = (nBits 1).toNat →
      checkShapeEquivalent c.VerificationKey.Vk c.VerificationKey.Dummy = true →
      ∃ vk0 vk1,
        (vk0.E = c.VerificationKey.Vk.E ∧ vk0.G1.K = c.VerificationKey.Vk.G1.K ∧
          vk0.G2 = c.VerificationKey.Vk.G2 ∧
          vk0.CommitmentKeys = c.VerificationKey.Vk.CommitmentKeys ∧
          vk0.PublicAndCommitmentCommitted =
            c.VerificationKey.Dummy.PublicAndCommitmentCommitted ∧
          (c.VerificationKey.Dummy.PublicAndCommitmentCommitted =
              c.VerificationKey.Vk.PublicAndCommitmentCommitted →
            vk0 = c.VerificationKey.Vk)) ∧
        vk1 = c.VerificationKey.Dummy ∧
        (Define api c).calls.take 2 =
          [Call.Switch 1, Call.AssertProof vk0 (c.Proofs 0) (c.PublicInputs 0)] ∧
        (api.AssertProof vk0 (c.Proofs 0) (c.PublicInputs 0) = none →
          (Define api c).calls =
            [Call.Switch 1, Call.AssertProof vk0 (c.Proofs 0) (c.PublicInputs 0),
              Call.Switch 0, Call.AssertProof vk1 (c.Proofs 1) (c.PublicInputs 1)])) := by
  refine ⟨fun k i hk => ?_, fun F _ modulus k i hk hlt hi => ?_, fun k hk => ?_,
    by decide, ?_⟩
  · have hk0 : 0 < k := by omega
    rw [nBits_pos hk0]
    show Nat.testBit _ i = true ↔ _
    rw [Nat.testBit_two_pow_sub_one]
    simp only [decide_eq_true_eq]
    omega
  · have hk0 : 0 < k := by omega
    have hnat : (nBits k).toNat < modulus := by
      rw [nBits_pos hk0] at hlt ⊢
      rw [Int.toNat_ofNat]
      exact_mod_cast hlt
    rw [ToBinary_get? _ _ _ hi, Nat.mod_eq_of_lt hnat, binaryDigit_nBits hk]
  · exact nBits_lt_BW6_761_iff hk
  · intro F Prf Wit Err _ api c hn hv hS hsel hshape
    obtain ⟨hK, hC, hP⟩ := (checkShapeEquivalent_unfold _ _).mp hshape
    have hmod : 2 ≤ api.Modulus := by
      have h2 : 1 < Nat.size api.Modulus := hn
      simpa using Nat.lt_size.mp h2
    have hred : c.Selector % api.Modulus = (nBits 1).toNat := by
      rw [hsel, nBits_one_toNat]
      exact Nat.mod_eq_of_lt (by omega)
    have d0 : (binaryDigit (c.Selector % api.Modulus) 0 : F) = 1 := by
      rw [hred, binaryDigit_nBits (le_refl 1)]; simp
    have d1 : (binaryDigit (c.Selector % api.Modulus) 1 : F) = 0 := by
      rw [hred, binaryDigit_nBits (le_refl 1)]; simp
    have hsw : ∀ s : F, api.Switch c.VerificationKey s =
        (select c.VerificationKey.Dummy c.VerificationKey.Vk s, none) := by
      intro s
      rw [hS]
      rfl
    have e1 := select_one c.VerificationKey.Dummy c.VerificationKey.Vk hK.symm.le hC.symm.le
    have e0 := select_zero c.VerificationKey.Dummy c.VerificationKey.Vk hK.le hC.le
    refine ⟨select c.VerificationKey.Dummy c.VerificationKey.Vk 1,
      select c.VerificationKey.Dummy c.VerificationKey.Vk 0, ?_, e0, ?_, ?_⟩
    · rw [e1]
      exact ⟨rfl, rfl, rfl, rfl, rfl, fun hidx => by rw [hidx]⟩
    · rcases Define_cases api c hn hv with
        ⟨e, h, -⟩ | ⟨-, ⟨e, -, hr⟩ | ⟨-, ⟨e, -, hr⟩ | ⟨-, ⟨e, -, hr⟩ | ⟨-, hr⟩⟩⟩⟩
      · simp [hsw] at h
      all_goals simp [hr, d0, d1, hsw]
    · intro hok
      rcases Define_cases api c hn hv with
        ⟨e, h, -⟩ | ⟨-, ⟨e, h, -⟩ | ⟨-, ⟨e, h, -⟩ | ⟨-, ⟨e, -, hr⟩ | ⟨-, hr⟩⟩⟩⟩
      · simp [hsw] at h
      · rw [d0, hsw] at h
        simp [hok] at h
      · simp [hsw] at h
      all_goals simp [hr, d0, d1, hsw]

/-- The run of the example circuit with the Selector `nBits 1`, and the largest `k` of
which `nBits k` is an element of the scalar field of BW6-761. -/
theorem selector_decomposition_witness :
    (nBits 376 < (BW6_761_ScalarField : Int) ∧
      (ToBinary BW6_761_ScalarField (nBits 376).toNat : List Int).get? 375 = some 1 ∧
      (ToBinary BW6_761_ScalarField (nBits 376).toNat : List Int).get? 376 = some 0) ∧
    ∃ vk0 vk1,
      (vk0.E = realKey.E ∧ vk0.G1.K = realKey.G1.K ∧ vk0.G2 = realKey.G2 ∧
        vk0.CommitmentKeys = realKey.CommitmentKeys ∧
        vk0.PublicAndCommitmentCommitted = dummyKey.PublicAndCommitmentCommitted ∧
        (dummyKey.PublicAndCommitmentCommitted = realKey.PublicAndCommitmentCommitted →
          vk0 = realKey)) ∧
      vk1 = dummyKey ∧
      (Define (demoAPI none) (demoOuter (nBits 1).toNat)).calls.take 2 =
        [Call.Switch 1,
          Call.AssertProof vk0 ((demoOuter (nBits 1).toNat).Proofs 0)
            ((demoOuter (nBits 1).toNat).PublicInputs 0)] ∧
      ((demoAPI none).AssertProof vk0 ((demoOuter (nBits 1).toNat).Proofs 0)
          ((demoOuter (nBits 1).toNat).PublicInputs 0) = none →
        (Define (demoAPI none) (demoOuter (nBits 1).toNat)).calls =
          [Call.Switch 1,
            Call.AssertProof vk0 ((demoOuter (nBits 1).toNat).Proofs 0)
              ((demoOuter (nBits 1).toNat).PublicInputs 0),
            Call.Switch 0,
            Call.AssertProof vk1 ((demoOuter (nBits 1).toNat).Proofs 1)
              ((demoOuter (nBits 1).toNat).PublicInputs 1)]) :=
  ⟨⟨nBits_376_lt,
      (selector_decomposition.2.1 Int BW6_761_ScalarField 376 375 (by decide) nBits_376_lt
        (by rw [BW6_761_ScalarField_size]; decide)).trans (by decide),
      (selector_decomposition.2.1 Int BW6_761_ScalarField 376 376 (by decide) nBits_376_lt
        (by rw [BW6_761_ScalarField_size]; decide)).trans (by decide)⟩,
    selector_decomposition.2.2.2.2 Int ToyProof (List Int) Nat (demoAPI none)
      (demoOuter (nBits 1).toNat) (demoAPI_fieldBitLen none) rfl rfl rfl (by decide)⟩

/-- C8 fails as stated: over the scalar field of BW6-761, the field of the outer circuit
in `TestOuterCircuit`, `nBits 377` is not below the modulus, and digit `0` of its
decomposition by `bits.ToBinary` is `0` although `0 < 377`; digit `1` is `1`. -/
theorem selector_reduction_counterexample :
    (1 : Int) ≤ 377 ∧ ((0 : Nat) : Int) < 377 ∧ (BW6_761_ScalarField : Int) ≤ nBits 377 ∧
      (ToBinary BW6_761_ScalarField (nBits 377).toNat : List Int).get? 0 = some 0 ∧
      (ToBinary BW6_761_ScalarField (nBits 377).toNat : List Int).get? 1 = some 1 :=
  ⟨by decide, by decide, nBits_377_ge,
    (ToBinary_get? _ _ 0 (by rw [BW6_761_ScalarField_size]; decide)).trans
      (congrArg some nBits_377_digits.1),
    (ToBinary_get? _ _ 1 (by rw [BW6_761_ScalarField_size]; decide)).trans
      (congrArg some nBits_377_digits.2)⟩

end Svk
